import Mathlib

/-!
Shallow embedding of the gas-simulation core in `3d_version_updated.py`
(class `GasSimulation3d`): particle state, the `Step` integrator
(free flight, pairwise collision detection and resolution, wall
reflection), the `SetParticles` placement routine, the derived thermal
speed from `__init__`, and the cell-partition bounds table built in
`__init__`.

Machine floats are modelled by exact rationals (reals where the source
takes square roots); the chamber side length, which the source derives
as `volume ** (1/3)`, is carried as an explicit parameter.  Random
draws (`random.rand`, `random.uniform`) are injected as explicit
functions.
-/

namespace IdealGas

/-- One row of the source's `(n, 3)` numpy arrays: a 3-component vector. -/
structure Vec3 where
  x : ℚ
  y : ℚ
  z : ℚ
deriving DecidableEq

namespace Vec3

def add (a b : Vec3) : Vec3 := ⟨a.x + b.x, a.y + b.y, a.z + b.z⟩

def sub (a b : Vec3) : Vec3 := ⟨a.x - b.x, a.y - b.y, a.z - b.z⟩

def smul (c : ℚ) (a : Vec3) : Vec3 := ⟨c * a.x, c * a.y, c * a.z⟩

/-- Componentwise division by a scalar, matching numpy's `array / scalar`. -/
def divS (a : Vec3) (c : ℚ) : Vec3 := ⟨a.x / c, a.y / c, a.z / c⟩

/-- Model of `np.dot` on 3-vectors. -/
def dot (a b : Vec3) : ℚ := a.x * b.x + a.y * b.y + a.z * b.z

def zero : Vec3 := ⟨0, 0, 0⟩

/-- Squared Euclidean norm of a row. -/
def normSq (a : Vec3) : ℚ := dot a a

instance : Add Vec3 := ⟨add⟩
instance : Sub Vec3 := ⟨sub⟩
instance : SMul ℚ Vec3 := ⟨smul⟩
instance : HDiv Vec3 ℚ Vec3 := ⟨divS⟩
instance : Zero Vec3 := ⟨zero⟩

end Vec3

/-- The mutable ensemble state: `self.pos` and `self.vel`, row `i` holding
particle `i`.  Parameters (`radius`, `sideLength`, `dt`) are passed to the
operations explicitly. -/
structure SimState where
  pos : List Vec3
  vel : List Vec3
deriving DecidableEq

/-- Row `i` of `self.pos` (rows used by `Step` always exist; out-of-range
reads default to the zero vector). -/
def posAt (s : SimState) (i : ℕ) : Vec3 := s.pos.getD i Vec3.zero

/-- Row `i` of `self.vel`. -/
def velAt (s : SimState) (i : ℕ) : Vec3 := s.vel.getD i Vec3.zero

/-- Free flight, line 141: `self.pos = self.pos + self.vel * dt`. -/
def freeFlight (dt : ℚ) (s : SimState) : SimState :=
  { s with pos := List.zipWith (fun p v => p + dt • v) s.pos s.vel }

/-- Collision detection, lines 155-159: all index pairs `i < j` whose
centers are closer than `2 * radius`.  The source compares the Euclidean
distance `pdist` to `2 * radius`; here the equivalent squared comparison
`normSq (p_i - p_j) < (2 * radius)^2` keeps the test inside ℚ
(for the nonnegative distance and a positive radius the two tests agree). -/
def detectPairs (radius : ℚ) (s : SimState) : List (ℕ × ℕ) :=
  (List.range s.pos.length).flatMap (fun i =>
    (List.range s.pos.length).filterMap (fun j =>
      if i < j ∧ Vec3.normSq (posAt s i - posAt s j) < (2 * radius) ^ 2 then
        some (i, j)
      else none))

/-- Body of the collision loop, lines 162-170, for one pair `(i1, i2)`:
compute `vel_cm`, `vec_normal`, `vel_normal`, `vel_change`, write the two
new velocity rows, then re-advance both position rows by the new
velocities times `dt`. -/
def resolvePair (dt : ℚ) (s : SimState) (i1 i2 : ℕ) : SimState :=
  let p1 := posAt s i1
  let p2 := posAt s i2
  let velCm := (velAt s i1 + velAt s i2) / (2 : ℚ)
  let vecNormal := p1 - p2
  let velNormal := velAt s i1 - velAt s i2
  let velChange :=
    ((2 * Vec3.dot vecNormal velNormal / Vec3.dot vecNormal vecNormal) • vecNormal)
      - velNormal
  let v1 := velCm - velChange / (2 : ℚ)
  let v2 := velCm + velChange / (2 : ℚ)
  { pos := (s.pos.set i1 (p1 + dt • v1)).set i2 (p2 + dt • v2),
    vel := (s.vel.set i1 v1).set i2 v2 }

/-- The collision loop: the detected pairs are traversed in order, each
resolution reading the state left by the previous ones. -/
def resolveList (dt : ℚ) (s : SimState) (ps : List (ℕ × ℕ)) : SimState :=
  ps.foldl (fun st p => resolvePair dt st p.1 p.2) s

/-- Lines 155-170: detect once on the post-flight positions, then resolve
the pairs sequentially. -/
def resolveCollisions (dt radius : ℚ) (s : SimState) : SimState :=
  resolveList dt s (detectPairs radius s)

/-- Wall handling for one coordinate/velocity-component pair, mirroring one
axis of the loop at lines 173-197: two sequential `if`s, the second
reading the coordinate possibly clamped by the first. -/
def reflectAxis (radius sideLength : ℚ) (pv : ℚ × ℚ) : ℚ × ℚ :=
  let pv1 := if pv.1 - radius < 0 then (radius * (101 / 100), -pv.2) else pv
  if pv1.1 + radius > sideLength then (sideLength - radius * (101 / 100), -pv1.2) else pv1

/-- Wall handling for one particle: the three axes are checked
independently. -/
def reflectParticle (radius sideLength : ℚ) (p v : Vec3) : Vec3 × Vec3 :=
  let ax := reflectAxis radius sideLength (p.x, v.x)
  let ay := reflectAxis radius sideLength (p.y, v.y)
  let az := reflectAxis radius sideLength (p.z, v.z)
  (⟨ax.1, ay.1, az.1⟩, ⟨ax.2, ay.2, az.2⟩)

/-- Wall-reflection pass over all particles, lines 173-197. -/
def wallReflect (radius sideLength : ℚ) (s : SimState) : SimState :=
  let prs := List.zipWith (reflectParticle radius sideLength) s.pos s.vel
  { pos := prs.map Prod.fst, vel := prs.map Prod.snd }

/-- The full `Step(dt)` integrator, lines 122-197: free flight, collision
detection and resolution, wall reflection.  The source performs no
validation of `dt`. -/
def Step (dt radius sideLength : ℚ) (s : SimState) : SimState :=
  wallReflect radius sideLength (resolveCollisions dt radius (freeFlight dt s))

/-- Model of `np.linspace a b m`: `m` evenly spaced values from `a` to `b`,
endpoints included (`linspace a b 1 = [a]`, as in numpy). -/
def linspace (a b : ℚ) (m : ℕ) : List ℚ :=
  (List.range m).map (fun k : ℕ => a + (k : ℚ) * (b - a) / ((m : ℚ) - 1))

/-- The placement loop of `SetParticles`, lines 57 and 77-82.  `m` is
`cubicParts1` (the source computes `int(floor(partCount ** (1/3)))` in
floating point; here the value is passed explicitly).  `jitter i a` models
the draw `random.rand(1)[0]` made for particle `i` on axis `a`, a value in
`[0, 1)`; the source multiplies it by `radius * 0.5`. -/
def setPositions (partCount m : ℕ) (radius sideLength : ℚ)
    (jitter : ℕ → ℕ → ℚ) : List Vec3 :=
  let dists := linspace (radius * 5) (sideLength - radius * 5) m
  (List.range partCount).map (fun i =>
    let t := i % m ^ 3
    ⟨dists.getD (t % m) 0 + jitter i 0 * (radius * (1 / 2)),
     dists.getD (t % m ^ 2 / m) 0 + jitter i 1 * (radius * (1 / 2)),
     dists.getD (t / m ^ 2) 0 + jitter i 2 * (radius * (1 / 2))⟩)

/-- The velocity initialization of `SetParticles`, line 92: each component
is a uniform draw in `[-1, 1]` scaled by `velNormalized`.  `draw i a`
models the uniform sample for particle `i`, axis `a`. -/
def setVelocities (partCount : ℕ) (scale : ℚ) (draw : ℕ → ℕ → ℚ) : List Vec3 :=
  (List.range partCount).map (fun i =>
    ⟨draw i 0 * scale, draw i 1 * scale, draw i 2 * scale⟩)

/-- The six scalar cell bounds of one row of `self.partBelonging`
(columns 0-5; column 6 is the particle-index slot). -/
structure CellRow where
  x0 : ℚ
  x1 : ℚ
  y0 : ℚ
  y1 : ℚ
  z0 : ℚ
  z1 : ℚ
deriving DecidableEq

/-- Row `i` of the cell table as written by the loop at lines 41-45: for
every axis `j`, columns `2j` and `2j+1` receive `cellLength * i` and
`cellLength * (i + 1)`, with `cellLength = sideLength / cubicParts1`. -/
def partBelongingRow (sideLength : ℚ) (m i : ℕ) : CellRow :=
  let cellLength := sideLength / (m : ℚ)
  ⟨cellLength * i, cellLength * (i + 1),
   cellLength * i, cellLength * (i + 1),
   cellLength * i, cellLength * (i + 1)⟩

/-- The bounds columns of the full `cubicParts1 ** 3`-row table. -/
def partBelongingTable (sideLength : ℚ) (m : ℕ) : List CellRow :=
  (List.range (m ^ 3)).map (partBelongingRow sideLength m)

/-- Modelled from the spec: the six min/max per-axis bounds of the `k`-th
axis-aligned sub-cube obtained by dividing the chamber into an
`m × m × m` grid (cells enumerated x-fastest, as the placement routine
enumerates grid cells).  This is what the spec says row `k` of the table
holds. -/
def gridCellBounds (sideLength : ℚ) (m k : ℕ) : CellRow :=
  let cellLength := sideLength / (m : ℚ)
  let ix : ℕ := k % m
  let iy : ℕ := k % m ^ 2 / m
  let iz : ℕ := k / m ^ 2
  ⟨cellLength * ix, cellLength * (ix + 1),
   cellLength * iy, cellLength * (iy + 1),
   cellLength * iz, cellLength * (iz + 1)⟩

/-- The Boltzmann constant in J/K, `1.380649e-23`, named by the spec. -/
def kBoltzmann : ℚ := 1380649 / 10 ^ 29

/-- The constant the source actually uses at line 35 (and again in
`my_dist`, lines 235-236): `1.87e-23`. -/
def kSource : ℚ := 187 / 10 ^ 25

/-- Line 35: `self.velNormalized = (3 * 1.87e-23 * self.temp / self.mass)
** (1 / 2)`, the thermal speed scale derived at construction. -/
noncomputable def velNormalized (temp mass : ℝ) : ℝ :=
  (3 * (kSource : ℝ) * temp / mass) ^ ((1 : ℝ) / 2)

/-- A two-particle state used to instantiate the pair-resolution
theorems: distinct centers, opposite velocities along x. -/
def twoBody : SimState :=
  ⟨[⟨0, 0, 0⟩, ⟨1, 0, 0⟩], [⟨1, 0, 0⟩, ⟨-1, 0, 0⟩]⟩

/-- A single-particle state used to instantiate the `Step` theorems. -/
def oneBody : SimState := ⟨[⟨5, 5, 5⟩], [⟨1, 0, 0⟩]⟩

/-- Two exactly coincident particles: the degenerate zero-normal pair. -/
def coincidentPair : SimState :=
  ⟨[⟨1, 1, 1⟩, ⟨1, 1, 1⟩], [⟨1, 0, 0⟩, ⟨0, 0, 0⟩]⟩

/-- Three collinear particles at distance 1, so that with
`radius = 3/4` the detected pairs are `(0,1)` and `(1,2)`: particle 1
appears in both. -/
def chainBody : SimState :=
  ⟨[⟨0, 0, 0⟩, ⟨1, 0, 0⟩, ⟨2, 0, 0⟩], [⟨1, 0, 0⟩, ⟨-1, 0, 0⟩, ⟨0, 0, 0⟩]⟩


/-! ## Unfolding and access lemmas -/

theorem Vec3.add_def (a b : Vec3) : a + b = ⟨a.x + b.x, a.y + b.y, a.z + b.z⟩ := rfl

theorem Vec3.sub_def (a b : Vec3) : a - b = ⟨a.x - b.x, a.y - b.y, a.z - b.z⟩ := rfl

theorem Vec3.smul_def (c : ℚ) (a : Vec3) : c • a = ⟨c * a.x, c * a.y, c * a.z⟩ := rfl

theorem Vec3.divS_def (a : Vec3) (c : ℚ) : a / c = ⟨a.x / c, a.y / c, a.z / c⟩ := rfl

theorem getD_set_self {α : Type} (l : List α) (i : ℕ) (a d : α) (h : i < l.length) :
    (l.set i a).getD i d = a := by
  simp [List.getD_eq_getElem?_getD, List.getElem?_set_eq_of_lt, h]

theorem getD_set_ne {α : Type} (l : List α) {i j : ℕ} (a d : α) (h : i ≠ j) :
    (l.set i a).getD j d = l.getD j d := by
  simp [List.getD_eq_getElem?_getD, List.getElem?_set_ne h]

theorem Vec3.eq_zero_of_dot_self (a : Vec3) (h : Vec3.dot a a = 0) : a = Vec3.zero := by
  obtain ⟨x, y, z⟩ := a
  simp only [Vec3.dot] at h
  have hx : x * x = 0 := by nlinarith [mul_self_nonneg x, mul_self_nonneg y, mul_self_nonneg z]
  have hy : y * y = 0 := by nlinarith [mul_self_nonneg x, mul_self_nonneg y, mul_self_nonneg z]
  have hz : z * z = 0 := by nlinarith [mul_self_nonneg x, mul_self_nonneg y, mul_self_nonneg z]
  simp only [Vec3.zero, Vec3.mk.injEq]
  exact ⟨mul_self_eq_zero.mp hx, mul_self_eq_zero.mp hy, mul_self_eq_zero.mp hz⟩

/-! ## Algebra of the collision update -/

theorem normSq_shift (u w : Vec3) :
    Vec3.normSq (u - w / (2 : ℚ)) + Vec3.normSq (u + w / (2 : ℚ))
      = 2 * Vec3.normSq u + Vec3.normSq w / 2 := by
  obtain ⟨ux, uy, uz⟩ := u
  obtain ⟨wx, wy, wz⟩ := w
  simp only [Vec3.add_def, Vec3.sub_def, Vec3.divS_def, Vec3.normSq, Vec3.dot]
  ring

theorem normSq_smul_sub (k : ℚ) (n w : Vec3) :
    Vec3.normSq (k • n - w)
      = k ^ 2 * Vec3.dot n n - 2 * k * Vec3.dot n w + Vec3.normSq w := by
  obtain ⟨nx, ny, nz⟩ := n
  obtain ⟨wx, wy, wz⟩ := w
  simp only [Vec3.sub_def, Vec3.smul_def, Vec3.normSq, Vec3.dot]
  ring

theorem normSq_reflect (n w : Vec3) (hq : Vec3.dot n n ≠ 0) :
    Vec3.normSq ((2 * Vec3.dot n w / Vec3.dot n n) • n - w) = Vec3.normSq w := by
  rw [normSq_smul_sub]
  field_simp
  ring

theorem energy_halves (a b : Vec3) :
    2 * Vec3.normSq ((a + b) / (2 : ℚ)) + Vec3.normSq (a - b) / 2
      = Vec3.normSq a + Vec3.normSq b := by
  obtain ⟨ax, ay, az⟩ := a
  obtain ⟨bx, by', bz⟩ := b
  simp only [Vec3.add_def, Vec3.sub_def, Vec3.divS_def, Vec3.normSq, Vec3.dot]
  ring

/-! ## C1: momentum conservation of one pair resolution -/

/-- Claim C1: for a pair `(i, j)` selected for collision resolution inside
`Step` (distinct in-range indices, as every detected pair is), the vector
sum of the two velocity rows is unchanged by the resolution update:
`v_i' + v_j' = v_i + v_j`. -/
theorem pair_resolution_momentum (dt : ℚ) (s : SimState) (i j : ℕ)
    (hi : i < s.vel.length) (hj : j < s.vel.length) (hij : i ≠ j) :
    velAt (resolvePair dt s i j) i + velAt (resolvePair dt s i j) j
      = velAt s i + velAt s j := by
  simp only [resolvePair, velAt]
  rw [getD_set_ne _ _ _ (Ne.symm hij), getD_set_self _ _ _ _ (by simpa using hi),
    getD_set_self _ _ _ _ (by simpa using hj)]
  obtain ⟨ax, ay, az⟩ := (s.vel.getD i Vec3.zero)
  obtain ⟨bx, by', bz⟩ := (s.vel.getD j Vec3.zero)
  obtain ⟨px, py, pz⟩ := posAt s i
  obtain ⟨qx, qy, qz⟩ := posAt s j
  simp only [Vec3.add_def, Vec3.sub_def, Vec3.smul_def, Vec3.divS_def, Vec3.dot,
    Vec3.mk.injEq]
  refine ⟨by ring, by ring, by ring⟩

/-- Witness for C1: the pair `(0, 1)` of the concrete two-particle state. -/
theorem pair_resolution_momentum_witness :
    (0 < twoBody.vel.length ∧ 1 < twoBody.vel.length ∧ (0 : ℕ) ≠ 1) ∧
    velAt (resolvePair 1 twoBody 0 1) 0 + velAt (resolvePair 1 twoBody 0 1) 1
      = velAt twoBody 0 + velAt twoBody 1 :=
  ⟨⟨by decide, by decide, by decide⟩,
    pair_resolution_momentum 1 twoBody 0 1 (by decide) (by decide) (by decide)⟩

/-! ## C2: kinetic-energy conservation of one pair resolution -/

/-- Claim C2: for a pair `(i, j)` selected for collision resolution inside
`Step` whose normal vector `pos_i - pos_j` is non-zero, the sum of squared
speeds is unchanged by the resolution update:
`|v_i'|^2 + |v_j'|^2 = |v_i|^2 + |v_j|^2`. -/
theorem pair_resolution_energy (dt : ℚ) (s : SimState) (i j : ℕ)
    (hi : i < s.vel.length) (hj : j < s.vel.length) (hij : i ≠ j)
    (hn : posAt s i - posAt s j ≠ Vec3.zero) :
    Vec3.normSq (velAt (resolvePair dt s i j) i)
        + Vec3.normSq (velAt (resolvePair dt s i j) j)
      = Vec3.normSq (velAt s i) + Vec3.normSq (velAt s j) := by
  have hq : Vec3.dot (posAt s i - posAt s j) (posAt s i - posAt s j) ≠ 0 := by
    intro h
    exact hn (Vec3.eq_zero_of_dot_self _ h)
  simp only [resolvePair, velAt]
  rw [getD_set_ne _ _ _ (Ne.symm hij), getD_set_self _ _ _ _ (by simpa using hi),
    getD_set_self _ _ _ _ (by simpa using hj)]
  rw [normSq_shift, normSq_reflect _ _ hq, energy_halves]

/-- Witness for C2: the pair `(0, 1)` of the concrete two-particle state,
whose centers are distinct. -/
theorem pair_resolution_energy_witness :
    (0 < twoBody.vel.length ∧ 1 < twoBody.vel.length ∧ (0 : ℕ) ≠ 1 ∧
      posAt twoBody 0 - posAt twoBody 1 ≠ Vec3.zero) ∧
    Vec3.normSq (velAt (resolvePair 1 twoBody 0 1) 0)
        + Vec3.normSq (velAt (resolvePair 1 twoBody 0 1) 1)
      = Vec3.normSq (velAt twoBody 0) + Vec3.normSq (velAt twoBody 1) :=
  ⟨⟨by decide, by decide, by decide,
      by norm_num [posAt, twoBody, Vec3.sub_def, Vec3.zero, List.getD, Vec3.mk.injEq]⟩,
    pair_resolution_energy 1 twoBody 0 1 (by decide) (by decide) (by decide)
      (by norm_num [posAt, twoBody, Vec3.sub_def, Vec3.zero, List.getD, Vec3.mk.injEq])⟩

/-! ## C3: containment after a step -/

theorem reflectAxis_bounds (radius sideLength : ℚ) (hr : 0 < radius)
    (hs : 2 * (101 / 100) * radius < sideLength) (pv : ℚ × ℚ) :
    radius ≤ (reflectAxis radius sideLength pv).1 ∧
      (reflectAxis radius sideLength pv).1 ≤ sideLength - radius := by
  simp only [reflectAxis]
  split_ifs with h1 h2 h3 <;> constructor <;> dsimp only <;> linarith

theorem mem_zipWith {α β γ : Type} {f : α → β → γ} {l1 : List α} {l2 : List β} {c : γ}
    (h : c ∈ List.zipWith f l1 l2) : ∃ a b, c = f a b := by
  induction l1 generalizing l2 with
  | nil => simp at h
  | cons a l ih =>
    cases l2 with
    | nil => simp at h
    | cons b l2' =>
      simp only [List.zipWith_cons_cons, List.mem_cons] at h
      rcases h with h | h
      · exact ⟨a, b, h⟩
      · exact ih h

/-- Claim C3: after `Step(dt)` returns, every particle coordinate on every
axis lies in `[radius, sideLength - radius]`, for any prior state, given
`0 < radius` and `sideLength > 2 * 1.01 * radius`. -/
theorem step_containment (dt radius sideLength : ℚ) (s : SimState) (hr : 0 < radius)
    (hs : 2 * (101 / 100) * radius < sideLength) :
    ∀ p ∈ (Step dt radius sideLength s).pos,
      (radius ≤ p.x ∧ p.x ≤ sideLength - radius) ∧
      (radius ≤ p.y ∧ p.y ≤ sideLength - radius) ∧
      (radius ≤ p.z ∧ p.z ≤ sideLength - radius) := by
  intro p hp
  simp only [Step, wallReflect, List.mem_map] at hp
  obtain ⟨pr, hpr, rfl⟩ := hp
  obtain ⟨a, b, rfl⟩ := mem_zipWith hpr
  simp only [reflectParticle]
  exact ⟨reflectAxis_bounds _ _ hr hs _, reflectAxis_bounds _ _ hr hs _,
    reflectAxis_bounds _ _ hr hs _⟩

/-- Witness for C3: one particle, `radius = 1`, `sideLength = 10`. -/
theorem step_containment_witness :
    ((0 : ℚ) < 1 ∧ 2 * (101 / 100) * (1 : ℚ) < 10) ∧
    ∀ p ∈ (Step 1 1 10 oneBody).pos,
      ((1 : ℚ) ≤ p.x ∧ p.x ≤ 10 - 1) ∧
      ((1 : ℚ) ≤ p.y ∧ p.y ≤ 10 - 1) ∧
      ((1 : ℚ) ≤ p.z ∧ p.z ≤ 10 - 1) :=
  ⟨⟨by norm_num, by norm_num⟩,
    step_containment 1 1 10 oneBody (by norm_num) (by norm_num)⟩


/-! ## C4: the zero-normal pair is selected and its denominator is zero -/

/-- Claim C4 (refuting theorem): for the concrete state with two exactly
coincident centers, the pair `(0, 1)` is selected for collision
resolution, and the denominator `dot(vec_normal, vec_normal)` of the
`vel_change` formula is exactly zero there: the resolution at line 166
divides by zero instead of skipping the pair or using a fallback
normal. -/
theorem zero_normal_pair_divides_by_zero :
    (0, 1) ∈ detectPairs 1 coincidentPair ∧
    Vec3.dot (posAt coincidentPair 0 - posAt coincidentPair 1)
        (posAt coincidentPair 0 - posAt coincidentPair 1) = 0 := by
  constructor
  · norm_num [detectPairs, posAt, coincidentPair, Vec3.sub_def, Vec3.normSq, Vec3.dot,
      Vec3.zero, List.range_succ, List.filterMap_cons, List.getD]
  · norm_num [posAt, coincidentPair, Vec3.sub_def, Vec3.dot, Vec3.zero, List.getD]

/-! ## C5: a non-positive timestep is not rejected and mutates state -/

/-- Claim C5 (refuting theorem): `Step` performs no timestep validation;
called with `dt = -1` on a concrete one-particle state it returns a state
with a different position array instead of rejecting the call and leaving
the state unchanged. -/
theorem step_negative_dt_mutates :
    Step (-1) (1 / 10) 10 oneBody ≠ oneBody := by
  norm_num [Step, freeFlight, wallReflect, resolveCollisions, resolveList, detectPairs,
    resolvePair, posAt, velAt, reflectParticle, reflectAxis, oneBody, Vec3.add_def,
    Vec3.sub_def, Vec3.smul_def, Vec3.divS_def, Vec3.dot, Vec3.normSq, Vec3.zero,
    List.range_succ, List.filterMap_cons, List.getD]

/-! ## C6: construction builds state for a non-positive configuration -/

/-- Claim C6 (refuting theorem): the constructor performs no validation;
with a non-positive `effectiveRadius = -1` the placement routine of
`SetParticles` still builds all 8 position rows, and the velocity routine
all 8 velocity rows, instead of failing fast with a configuration error
before any state is built. -/
theorem invalid_config_builds_state :
    (setPositions 8 2 (-1) 20 (fun _ _ => 1 / 2)).length = 8 ∧
    (setVelocities 8 (-1) (fun _ _ => 1 / 2)).length = 8 := by
  constructor <;> simp [setPositions, setVelocities]

/-! ## C9: the cell table rows are not the grid sub-cubes -/

/-- Claim C9 (refuting theorem): with `cubicParts1 = 2` and
`sideLength = 2` the table loop writes `[i * cellLength, (i+1) *
cellLength]` on all three axes of row `i`; row 7 is `[7, 8]` on every
axis, starting outside the chamber `[0, 2]`, while every sub-cube of the
`2 x 2 x 2` grid lies inside the chamber.  Row 7 is therefore not the
bounds row of any grid sub-cube, contradicting the claimed table
contents. -/
theorem cell_table_row_not_grid_cell :
    (partBelongingTable 2 2).getD 7 ⟨0, 0, 0, 0, 0, 0⟩ = ⟨7, 8, 7, 8, 7, 8⟩ ∧
    partBelongingRow 2 2 7 ≠ gridCellBounds 2 2 7 ∧
    (∀ k ∈ List.range (2 ^ 3),
      (gridCellBounds 2 2 k).x0 ≤ 2 ∧ (gridCellBounds 2 2 k).x1 ≤ 2 ∧
      (gridCellBounds 2 2 k).y1 ≤ 2 ∧ (gridCellBounds 2 2 k).z1 ≤ 2) := by
  refine ⟨?_, ?_, ?_⟩
  · norm_num [partBelongingTable, partBelongingRow, List.range_succ, List.getD]
  · norm_num [partBelongingRow, gridCellBounds, CellRow.mk.injEq]
  · intro k hk
    fin_cases hk <;> norm_num [gridCellBounds]

/-! ## C10: pair resolutions are sequential and order-dependent -/

/-- Claim C10: on the concrete three-particle chain, the detected pairs
are `(0,1)` and `(1,2)` (particle 1 in both); the collision loop resolves
them sequentially, the second resolution reading the positions and
velocities already modified by the first (including the corrective
re-advance); and traversing the same detected pairs in the opposite order
yields a different post-loop state. -/
theorem collision_loop_order_dependent :
    detectPairs (3 / 4) chainBody = [(0, 1), (1, 2)] ∧
    resolveList (1 / 10) chainBody [(0, 1), (1, 2)]
      = resolvePair (1 / 10) (resolvePair (1 / 10) chainBody 0 1) 1 2 ∧
    resolveList (1 / 10) chainBody [(0, 1), (1, 2)]
      ≠ resolveList (1 / 10) chainBody [(1, 2), (0, 1)] := by
  refine ⟨?_, rfl, ?_⟩
  · norm_num [detectPairs, posAt, chainBody, Vec3.sub_def, Vec3.normSq, Vec3.dot,
      Vec3.zero, List.range_succ, List.filterMap_cons, List.getD]
  · norm_num [resolveList, resolvePair, posAt, velAt, chainBody, Vec3.add_def,
      Vec3.sub_def, Vec3.smul_def, Vec3.divS_def, Vec3.dot, Vec3.zero, List.getD, List.set]


/-! ## C7: the thermal-speed constant -/

/-- Claim C7 (counterexample): at `temp = 1`, `mass = 1` the thermal speed
computed at line 35 is not `sqrt(3 * k_B * T / mass)` with the Boltzmann
constant `1.380649e-23`: the source multiplies by `1.87e-23` instead. -/
theorem thermal_speed_not_rms :
    velNormalized 1 1 ≠ Real.sqrt (3 * (kBoltzmann : ℝ) * 1 / 1) := by
  have h1 : velNormalized 1 1 = Real.sqrt (3 * (kSource : ℝ)) := by
    rw [velNormalized, Real.sqrt_eq_rpow]
    norm_num
  rw [h1]
  have hlt : (3 * (kBoltzmann : ℝ) * 1 / 1) < 3 * (kSource : ℝ) := by
    norm_num [kBoltzmann, kSource]
  have hge : (0 : ℝ) ≤ 3 * (kBoltzmann : ℝ) * 1 / 1 := by
    norm_num [kBoltzmann]
  exact (Real.sqrt_lt_sqrt hge hlt).ne.symm

/-- Claim C7 (amended): for every positive mass and temperature, the
thermal speed scale computed at construction equals
`sqrt(3 * c * T / mass)` with `c = 1.87e-23` — a constant larger than the
Boltzmann constant — and therefore strictly exceeds the kinetic-theory
root-mean-square speed `sqrt(3 * k_B * T / mass)`. -/
theorem thermal_speed_source_constant (temp mass : ℝ) (ht : 0 < temp) (hm : 0 < mass) :
    velNormalized temp mass = Real.sqrt (3 * (kSource : ℝ) * temp / mass) ∧
    Real.sqrt (3 * (kBoltzmann : ℝ) * temp / mass) < velNormalized temp mass := by
  have hks : (0 : ℝ) < (kSource : ℝ) := by norm_num [kSource]
  have hkb : (0 : ℝ) < (kBoltzmann : ℝ) := by norm_num [kBoltzmann]
  have hlt : (kBoltzmann : ℝ) < (kSource : ℝ) := by norm_num [kBoltzmann, kSource]
  have heq : velNormalized temp mass = Real.sqrt (3 * (kSource : ℝ) * temp / mass) := by
    rw [velNormalized, Real.sqrt_eq_rpow]
  refine ⟨heq, ?_⟩
  rw [heq]
  apply Real.sqrt_lt_sqrt
  · positivity
  · gcongr

/-- Witness for the amended C7 at `temp = 1`, `mass = 1`. -/
theorem thermal_speed_source_constant_witness :
    ((0 : ℝ) < 1 ∧ (0 : ℝ) < 1) ∧
    (velNormalized 1 1 = Real.sqrt (3 * (kSource : ℝ) * 1 / 1) ∧
      Real.sqrt (3 * (kBoltzmann : ℝ) * 1 / 1) < velNormalized 1 1) :=
  ⟨⟨by norm_num, by norm_num⟩,
    thermal_speed_source_constant 1 1 (by norm_num) (by norm_num)⟩

/-! ## C8: the initial placement -/

theorem linspace_getD (a b : ℚ) (m k : ℕ) (hk : k < m) :
    (linspace a b m).getD k 0 = a + k * (b - a) / ((m : ℚ) - 1) := by
  rw [linspace, List.getD_eq_getElem?_getD, List.getElem?_map, List.getElem?_range hk]
  rfl

theorem linspace_getD_bounds (a b : ℚ) (m k : ℕ) (hk : k < m) (hab : a ≤ b) :
    a ≤ (linspace a b m).getD k 0 ∧ (linspace a b m).getD k 0 ≤ b := by
  rw [linspace_getD a b m k hk]
  rcases Nat.lt_or_ge m 2 with hm | hm
  · have hm1 : m = 1 := by omega
    have hk0 : k = 0 := by omega
    subst hm1
    subst hk0
    norm_num
    exact hab
  · have hs : (0 : ℚ) < (m : ℚ) - 1 := by
      have : (2 : ℚ) ≤ (m : ℚ) := by exact_mod_cast hm
      linarith
    have hkq : (k : ℚ) ≤ (m : ℚ) - 1 := by
      have : (k : ℚ) + 1 ≤ (m : ℚ) := by exact_mod_cast hk
      linarith
    have hk0 : (0 : ℚ) ≤ (k : ℚ) := Nat.cast_nonneg k
    constructor
    · have : 0 ≤ (k : ℚ) * (b - a) / ((m : ℚ) - 1) :=
        div_nonneg (mul_nonneg hk0 (by linarith)) hs.le
      linarith
    · have h1 : (k : ℚ) * (b - a) ≤ ((m : ℚ) - 1) * (b - a) :=
        mul_le_mul_of_nonneg_right hkq (by linarith)
      have h2 : (k : ℚ) * (b - a) / ((m : ℚ) - 1) ≤ b - a := by
        rw [div_le_iff₀ hs]
        linarith [h1]
      linarith

theorem digits_reconstruct (m t : ℕ) :
    m ^ 2 * (t / m ^ 2) + m * (t % m ^ 2 / m) + t % m = t := by
  have h3 : t % m ^ 2 % m = t % m :=
    Nat.mod_mod_of_dvd t (dvd_pow_self m two_ne_zero)
  have h2 : m * (t % m ^ 2 / m) + t % m ^ 2 % m = t % m ^ 2 := Nat.div_add_mod _ m
  have h1 : m ^ 2 * (t / m ^ 2) + t % m ^ 2 = t := Nat.div_add_mod t (m ^ 2)
  rw [add_assoc, ← h3, h2, h1]

theorem digits_inj {m t1 t2 : ℕ} (h0 : t1 % m = t2 % m)
    (h1 : t1 % m ^ 2 / m = t2 % m ^ 2 / m) (h2 : t1 / m ^ 2 = t2 / m ^ 2) :
    t1 = t2 := by
  rw [← digits_reconstruct m t1, ← digits_reconstruct m t2, h0, h1, h2]

theorem setPositions_getD (N m : ℕ) (r sL : ℚ) (jit : ℕ → ℕ → ℚ) (i : ℕ) (hi : i < N) :
    (setPositions N m r sL jit).getD i Vec3.zero =
      ⟨(linspace (r * 5) (sL - r * 5) m).getD (i % m ^ 3 % m) 0
          + jit i 0 * (r * (1 / 2)),
       (linspace (r * 5) (sL - r * 5) m).getD (i % m ^ 3 % m ^ 2 / m) 0
          + jit i 1 * (r * (1 / 2)),
       (linspace (r * 5) (sL - r * 5) m).getD (i % m ^ 3 / m ^ 2) 0
          + jit i 2 * (r * (1 / 2))⟩ := by
  rw [setPositions, List.getD_eq_getElem?_getD, List.getElem?_map, List.getElem?_range hi]
  rfl

theorem lattice_jitter_lt (a u r2 : ℚ) {k1 k2 : ℕ} (hu : r2 ≤ u) (hr2 : 0 < r2)
    {j1 j2 : ℚ} (hj1 : j1 < 1) (hj2 : 0 ≤ j2) (h : k1 < k2) :
    a + (k1 : ℚ) * u + j1 * r2 ≠ a + (k2 : ℚ) * u + j2 * r2 := by
  intro e
  have hk1 : (k1 : ℚ) + 1 ≤ (k2 : ℚ) := by exact_mod_cast h
  have hA : j1 * r2 < r2 := by nlinarith
  have hB : 0 ≤ j2 * r2 := mul_nonneg hj2 hr2.le
  have h1 : u ≤ ((k2 : ℚ) - k1) * u := by nlinarith
  nlinarith

/-- Claim C8 (counterexample): with `N = 8 = 2 ^ 3` a perfect cube,
`radius = 1`, `sideLength = 20` and every jitter draw equal to `1/2`,
particle 7 exists and its x-coordinate is `61/4`, which exceeds
`sideLength - 5 * radius = 15`: the jitter pushes the outermost lattice
points beyond the interval `[5 * radius, sideLength - 5 * radius]`
asserted by the claim. -/
theorem grid_jitter_exceeds_margin :
    7 < (setPositions (2 ^ 3) 2 1 20 (fun _ _ => 1 / 2)).length ∧
    ((setPositions (2 ^ 3) 2 1 20 (fun _ _ => 1 / 2)).getD 7 Vec3.zero).x > 20 - 1 * 5 := by
  constructor
  · simp [setPositions]
  · norm_num [setPositions, linspace, List.range_succ, List.getD, Vec3.zero]

/-- Claim C8 (amended): when `N = m ^ 3` is a perfect cube, all jitter
draws lie in `[0, 1)` (the source scales them by `0.5 * radius`), and the
lattice spacing dominates the jitter amplitude
(`0.5 * radius * (m - 1) ≤ sideLength - 10 * radius`), then every initial
coordinate lies in `[5 * radius, sideLength - 5 * radius + 0.5 * radius)`
on every axis, and no two particles' initial positions coincide
exactly. -/
theorem setPositions_cube_bounds_distinct (m : ℕ) (radius sideLength : ℚ)
    (jitter : ℕ → ℕ → ℚ) (hr : 0 < radius)
    (hjit : ∀ i a, 0 ≤ jitter i a ∧ jitter i a < 1)
    (hspace : radius * (1 / 2) * ((m : ℚ) - 1) ≤ sideLength - radius * 10) :
    (∀ p ∈ setPositions (m ^ 3) m radius sideLength jitter,
        (radius * 5 ≤ p.x ∧ p.x < sideLength - radius * 5 + radius * (1 / 2)) ∧
        (radius * 5 ≤ p.y ∧ p.y < sideLength - radius * 5 + radius * (1 / 2)) ∧
        (radius * 5 ≤ p.z ∧ p.z < sideLength - radius * 5 + radius * (1 / 2))) ∧
    (∀ i j : ℕ, i < m ^ 3 → j < m ^ 3 → i ≠ j →
        (setPositions (m ^ 3) m radius sideLength jitter).getD i Vec3.zero ≠
          (setPositions (m ^ 3) m radius sideLength jitter).getD j Vec3.zero) := by
  have key : ∀ i : ℕ, i < m ^ 3 → 0 < m := by
    intro i hi
    rcases Nat.eq_zero_or_pos m with h | h
    · subst h; simp at hi
    · exact h
  constructor
  · intro p hp
    simp only [setPositions, List.mem_map, List.mem_range] at hp
    obtain ⟨i, hi, rfl⟩ := hp
    have hm : 0 < m := key i hi
    have hm1 : (1 : ℚ) ≤ (m : ℚ) := by exact_mod_cast hm
    have hab : radius * 5 ≤ sideLength - radius * 5 := by nlinarith
    have hm2pos : 0 < m ^ 2 := pow_pos hm 2
    have hkx : i % m ^ 3 % m < m := Nat.mod_lt _ hm
    have hky : i % m ^ 3 % m ^ 2 / m < m := by
      have h1 : i % m ^ 3 % m ^ 2 < m ^ 2 := Nat.mod_lt _ hm2pos
      have h2 : m ^ 2 = m * m := by ring
      exact (Nat.div_lt_iff_lt_mul hm).mpr (h2 ▸ h1)
    have hkz : i % m ^ 3 / m ^ 2 < m := by
      have h1 : i % m ^ 3 < m ^ 3 := Nat.mod_lt _ (pow_pos hm 3)
      have h2 : m ^ 3 = m * m ^ 2 := by ring
      exact (Nat.div_lt_iff_lt_mul hm2pos).mpr (h2 ▸ h1)
    have hr2 : (0 : ℚ) < radius * (1 / 2) := by linarith
    refine ⟨?_, ?_, ?_⟩
    · obtain ⟨hlo, hhi⟩ := linspace_getD_bounds _ _ m _ hkx hab
      obtain ⟨hj0, hj1⟩ := hjit i 0
      have h1 : 0 ≤ jitter i 0 * (radius * (1 / 2)) := mul_nonneg hj0 hr2.le
      have h2 : jitter i 0 * (radius * (1 / 2)) < 1 * (radius * (1 / 2)) :=
        mul_lt_mul_of_pos_right hj1 hr2
      constructor <;> dsimp only <;> linarith
    · obtain ⟨hlo, hhi⟩ := linspace_getD_bounds _ _ m _ hky hab
      obtain ⟨hj0, hj1⟩ := hjit i 1
      have h1 : 0 ≤ jitter i 1 * (radius * (1 / 2)) := mul_nonneg hj0 hr2.le
      have h2 : jitter i 1 * (radius * (1 / 2)) < 1 * (radius * (1 / 2)) :=
        mul_lt_mul_of_pos_right hj1 hr2
      constructor <;> dsimp only <;> linarith
    · obtain ⟨hlo, hhi⟩ := linspace_getD_bounds _ _ m _ hkz hab
      obtain ⟨hj0, hj1⟩ := hjit i 2
      have h1 : 0 ≤ jitter i 2 * (radius * (1 / 2)) := mul_nonneg hj0 hr2.le
      have h2 : jitter i 2 * (radius * (1 / 2)) < 1 * (radius * (1 / 2)) :=
        mul_lt_mul_of_pos_right hj1 hr2
      constructor <;> dsimp only <;> linarith
  · intro i j hi hj hij heq
    have hm : 0 < m := key i hi
    have hm2pos : 0 < m ^ 2 := pow_pos hm 2
    have hm2 : 2 ≤ m := by
      by_contra h
      push_neg at h
      have : m ^ 3 ≤ 1 := by
        calc m ^ 3 ≤ 1 ^ 3 := Nat.pow_le_pow_left (by omega) 3
        _ = 1 := by norm_num
      omega
    rw [setPositions_getD _ _ _ _ _ _ hi, setPositions_getD _ _ _ _ _ _ hj] at heq
    rw [Nat.mod_eq_of_lt hi, Nat.mod_eq_of_lt hj] at heq
    have hdig : i % m ≠ j % m ∨ i % m ^ 2 / m ≠ j % m ^ 2 / m ∨ i / m ^ 2 ≠ j / m ^ 2 := by
      by_contra h
      push_neg at h
      exact hij (digits_inj h.1 h.2.1 h.2.2)
    simp only [Vec3.mk.injEq] at heq
    obtain ⟨e1, e2, e3⟩ := heq
    have hs : (0 : ℚ) < (m : ℚ) - 1 := by
      have : (2 : ℚ) ≤ (m : ℚ) := by exact_mod_cast hm2
      linarith
    have hr2 : (0 : ℚ) < radius * (1 / 2) := by linarith
    have hu : radius * (1 / 2) ≤ (sideLength - radius * 5 - radius * 5) / ((m : ℚ) - 1) := by
      rw [le_div_iff₀ hs]
      linarith
    have hdy : ∀ k : ℕ, k % m ^ 2 / m < m := by
      intro k
      have h1 : k % m ^ 2 < m ^ 2 := Nat.mod_lt _ hm2pos
      have h2 : m ^ 2 = m * m := by ring
      exact (Nat.div_lt_iff_lt_mul hm).mpr (h2 ▸ h1)
    rcases hdig with hne | hne | hne
    · rw [linspace_getD _ _ _ _ (Nat.mod_lt _ hm), linspace_getD _ _ _ _ (Nat.mod_lt _ hm),
        mul_div_assoc, mul_div_assoc] at e1
      rcases lt_or_gt_of_ne hne with hlt | hlt
      · exact lattice_jitter_lt _ _ _ hu hr2 (hjit i 0).2 (hjit j 0).1 hlt e1
      · exact lattice_jitter_lt _ _ _ hu hr2 (hjit j 0).2 (hjit i 0).1 hlt e1.symm
    · rw [linspace_getD _ _ _ _ (hdy i), linspace_getD _ _ _ _ (hdy j),
        mul_div_assoc, mul_div_assoc] at e2
      rcases lt_or_gt_of_ne hne with hlt | hlt
      · exact lattice_jitter_lt _ _ _ hu hr2 (hjit i 1).2 (hjit j 1).1 hlt e2
      · exact lattice_jitter_lt _ _ _ hu hr2 (hjit j 1).2 (hjit i 1).1 hlt e2.symm
    · have hdzi : i / m ^ 2 < m := by
        have h2 : m ^ 3 = m * m ^ 2 := by ring
        exact (Nat.div_lt_iff_lt_mul hm2pos).mpr (h2 ▸ hi)
      have hdzj : j / m ^ 2 < m := by
        have h2 : m ^ 3 = m * m ^ 2 := by ring
        exact (Nat.div_lt_iff_lt_mul hm2pos).mpr (h2 ▸ hj)
      rw [linspace_getD _ _ _ _ hdzi, linspace_getD _ _ _ _ hdzj,
        mul_div_assoc, mul_div_assoc] at e3
      rcases lt_or_gt_of_ne hne with hlt | hlt
      · exact lattice_jitter_lt _ _ _ hu hr2 (hjit i 2).2 (hjit j 2).1 hlt e3
      · exact lattice_jitter_lt _ _ _ hu hr2 (hjit j 2).2 (hjit i 2).1 hlt e3.symm

/-- Witness for the amended C8: `m = 2`, `radius = 1`, `sideLength = 30`,
all jitter draws `1/2`. -/
theorem setPositions_cube_bounds_distinct_witness :
    ((0 : ℚ) < 1 ∧
      (∀ i a : ℕ, (0 : ℚ) ≤ 1 / 2 ∧ (1 : ℚ) / 2 < 1) ∧
      (1 : ℚ) * (1 / 2) * (((2 : ℕ) : ℚ) - 1) ≤ 30 - 1 * 10) ∧
    ((∀ p ∈ setPositions (2 ^ 3) 2 1 30 (fun _ _ => 1 / 2),
        ((1 : ℚ) * 5 ≤ p.x ∧ p.x < 30 - 1 * 5 + 1 * (1 / 2)) ∧
        ((1 : ℚ) * 5 ≤ p.y ∧ p.y < 30 - 1 * 5 + 1 * (1 / 2)) ∧
        ((1 : ℚ) * 5 ≤ p.z ∧ p.z < 30 - 1 * 5 + 1 * (1 / 2))) ∧
      (∀ i j : ℕ, i < 2 ^ 3 → j < 2 ^ 3 → i ≠ j →
        (setPositions (2 ^ 3) 2 1 30 (fun _ _ => 1 / 2)).getD i Vec3.zero ≠
          (setPositions (2 ^ 3) 2 1 30 (fun _ _ => 1 / 2)).getD j Vec3.zero)) :=
  ⟨⟨by norm_num, fun _ _ => ⟨by norm_num, by norm_num⟩, by norm_num⟩,
    setPositions_cube_bounds_distinct 2 1 30 (fun _ _ => 1 / 2) (by norm_num)
      (fun _ _ => ⟨by norm_num, by norm_num⟩) (by norm_num)⟩

end IdealGas
